import Mathlib

/-!
Verification of the CCT (core concept transformation algebra) type checker.

The repository configures a polymorphic type system with nominal subtyping:
`cct.py` declares the operator hierarchy (Val/Obj/Reg/Loc/Qlt/Nom/Bool/Ord/
Itv/Ratio/Count), the relation constructor `R`, the data inputs and the
operator schemes with their constraints.  The generic machinery (type model,
subtype lattice, constraint system, unifier, instantiator and expression
checker) lives outside the given sources, so it is modelled here from the
specification; the configuration below is transcribed from
`src/quangis/transformation/cct.py`.
-/

namespace CCT

/-- Concrete type operators declared in class CCT (cct.py lines 27-38),
including the relation constructor `R`. -/
inductive TOp
  | Val
  | Obj
  | Reg
  | Loc
  | Qlt
  | Nom
  | Bool
  | Ord
  | Itv
  | Ratio
  | Count
  | R
deriving DecidableEq, Fintype

/-- The declared direct supertype of each operator, transcribed from the
`supertype=` keyword arguments in cct.py lines 27-38. -/
def supertype : TOp → Option TOp
  | .Val => none
  | .Obj => some .Val
  | .Reg => some .Val
  | .Loc => some .Val
  | .Qlt => some .Val
  | .Nom => some .Qlt
  | .Bool => some .Nom
  | .Ord => some .Nom
  | .Itv => some .Ord
  | .Ratio => some .Itv
  | .Count => some .Ratio
  | .R => none

/-- The chain of strict ancestors of an operator, following declared
supertypes; the fuel bounds the walk (the hierarchy has depth at most 7). -/
def chainFrom : Nat → TOp → List TOp
  | 0, _ => []
  | fuel + 1, t =>
    match supertype t with
    | none => []
    | some s => s :: chainFrom fuel s

/-- Modelled from the spec (Subtype Lattice, missing `type.py`):
`isSubtype(A, B)` is true iff A = B or A's declared supertype chain
reaches B. -/
def isSubtypeOp (a b : TOp) : Bool :=
  a = b || (chainFrom 12 a).contains b

/-- Modelled from the spec (missing `type.py`): the declared arity of each
type operator.  All concrete operators are nullary; `R` is the relation
constructor, applied at arities 1 to 3 throughout the configuration. -/
def arityOk : TOp → Nat → Bool
  | .R, n => decide (1 ≤ n) && decide (n ≤ 3)
  | _, n => decide (n = 0)

/-- Raw types exactly as constructed in cct.py: a type variable, a type
operator applied to a list of argument types (a `ParametricType`), or a
function (`**`) type. -/
inductive RawTy
  | tvar (n : Nat)
  | app (op : TOp) (args : List RawTy)
  | fn (dom cod : RawTy)

/-- Checks the spec invariant that every operator application's argument
count matches the operator's declared arity; the fuel bounds recursion
depth (configuration types are shallow). -/
def wfArityF : Nat → RawTy → Bool
  | 0, _ => false
  | _ + 1, .tvar _ => true
  | fuel + 1, .fn a b => wfArityF fuel a && wfArityF fuel b
  | fuel + 1, .app op args => arityOk op args.length && args.all (fun a => wfArityF fuel a)

/-- Checker-level types.  The configuration applies `R` only at arities
1-3, so relation types are represented with one constructor per arity;
all other operators are nullary (`base`). -/
inductive Ty
  | var (n : Nat)
  | base (op : TOp)
  | r1 (a : Ty)
  | r2 (a b : Ty)
  | r3 (a b c : Ty)
  | fn (dom cod : Ty)
deriving DecidableEq

/-- Error kinds of the checker, from the spec's error handling design. -/
inductive Err
  | subtypeMismatch
  | constraintViolation
  | arityMismatch
  | infiniteType
  | cyclicHierarchy
  | noCommonSupertype
  | constraintDeadlock
  | ambiguousOverload
  | undefinedOperatorArity
  | unresolvedType
deriving DecidableEq

/-- Constraints attached to scheme variables, from the spec's constraint
system: a subtype bound (`x.limit(Val)`), a parameter-position linkage
(`rel.has_param(R, x, at=1)`, position 1-based, `none` = any position),
and a structural shape limit (`rel.limit(R(x, q), R(y, q))`). -/
inductive Constraint
  | subtypeBound (v : Nat) (bound : TOp)
  | hasParam (v : Nat) (op : TOp) (pv : Nat) (pos : Option Nat)
  | shapeLimit (v : Nat) (pats : List Ty)
deriving DecidableEq

/-- Raw constraints exactly as attached in cct.py via `.limit` (with an
operator bound or with shape patterns) and `.has_param`. -/
inductive RawConstraint
  | limitOp (v : Nat) (bound : TOp)
  | limitShape (v : Nat) (pats : List RawTy)
  | hasParam (v : Nat) (op : TOp) (pv : Nat) (pos : Option Nat)

/-- A class-body declaration of cct.py: either a data input (a type plus
its declared count of curried arguments) or an operator with one or more
alternative schemes. -/
inductive RawDecl
  | data (t : RawTy) (count : Nat)
  | op (alts : List (RawTy × List RawConstraint))

/-- Converts a raw type to a checker type, enforcing the declared arities
(nullary operators, `R` at arity 1-3); fuel bounds recursion depth. -/
def toTyF : Nat → RawTy → Option Ty
  | 0, _ => none
  | _ + 1, .tvar n => some (.var n)
  | fuel + 1, .fn a b => do
    let a' ← toTyF fuel a
    let b' ← toTyF fuel b
    pure (.fn a' b')
  | fuel + 1, .app op args =>
    match op, args with
    | .R, [a] => (toTyF fuel a).map .r1
    | .R, [a, b] => do
      let a' ← toTyF fuel a
      let b' ← toTyF fuel b
      pure (.r2 a' b')
    | .R, [a, b, c] => do
      let a' ← toTyF fuel a
      let b' ← toTyF fuel b
      let c' ← toTyF fuel c
      pure (.r3 a' b' c')
    | .R, _ => none
    | o, [] => some (.base o)
    | _, _ => none

/-- Converts a raw constraint to a checker constraint. -/
def toConF : RawConstraint → Option Constraint
  | .limitOp v b => some (.subtypeBound v b)
  | .limitShape v pats => (pats.mapM (toTyF 32)).map (.shapeLimit v)
  | .hasParam v op pv pos => some (.hasParam v op pv pos)

/-- A polymorphic operator signature: a type skeleton over bound variables
`0..nvars-1`, its constraints, and the count of bound variables that an
instantiation must refresh. -/
structure Scheme where
  skeleton : Ty
  cons : List Constraint
  nvars : Nat
deriving DecidableEq

/-- Modelled from the spec (Expression Checker, missing `algebra.py`):
a data input declared with count m consumes m curried arguments of fresh
unconstrained types (externally supplied data) and yields its declared
type. -/
def mkDataSkel (ty : Ty) (m : Nat) : Ty :=
  (List.range m).foldr (fun i acc => .fn (.var i) acc) ty

/-- Converts one class-body declaration into its scheme alternatives.
Class-level schemes share the seven module-level type variables
x, y, z, q, q1, q2, rel (cct.py line 9), so their bound-variable count
is 7. -/
def toSchemes : RawDecl → Option (List Scheme)
  | .data t m => (toTyF 32 t).map (fun ty => [⟨mkDataSkel ty m, [], m⟩])
  | .op alts =>
    alts.mapM (fun alt => do
      let ty ← toTyF 32 alt.1
      let cs ← alt.2.mapM toConF
      pure (⟨ty, cs, 7⟩ : Scheme))

/-- Shared raw type variables of cct.py line 9: x, y, z, q, q1, q2, rel. -/
def vx : RawTy := .tvar 0

def vy : RawTy := .tvar 1

def vz : RawTy := .tvar 2

def vq : RawTy := .tvar 3

def vq1 : RawTy := .tvar 4

def vq2 : RawTy := .tvar 5

def vrel : RawTy := .tvar 6

/-- A nullary operator application. -/
def bb (o : TOp) : RawTy := .app o []

/-- A unary relation type R(a). -/
def r1R (a : RawTy) : RawTy := .app .R [a]

/-- A binary relation type R(a, b). -/
def r2R (a b : RawTy) : RawTy := .app .R [a, b]

/-- A ternary relation type R(a, b, c). -/
def r3R (a b c : RawTy) : RawTy := .app .R [a, b, c]

/-- A function (`**`) type, right-associated by nesting. -/
def fA (a b : RawTy) : RawTy := .fn a b

/-- The type synonyms of cct.py lines 40-48 (SpatialField, InvertedField,
FieldSample, ObjectExtent, ObjectQuality, NominalField, BooleanField,
NominalInvertedField, BooleanInvertedField). -/
def rawSynonyms : List RawTy :=
  [ r2R (bb .Loc) (bb .Qlt)
  , r2R (bb .Qlt) (bb .Reg)
  , r2R (bb .Reg) (bb .Qlt)
  , r2R (bb .Obj) (bb .Reg)
  , r2R (bb .Obj) (bb .Qlt)
  , r2R (bb .Loc) (bb .Nom)
  , r2R (bb .Loc) (bb .Bool)
  , r2R (bb .Nom) (bb .Reg)
  , r2R (bb .Bool) (bb .Reg)
  ]

/-- The signature table of class CCT, transcribed declaration by
declaration from cct.py lines 53-162: data inputs, math/stats
transformations, geographic transformations and relational
transformations, with `invert` and `revert` carrying two alternative
schemes each. -/
def rawTable : List (String × RawDecl) :=
  [ (r"pointmeasures", .data (r2R (bb .Reg) (bb .Itv)) 1)
  , (r"amountpatches", .data (r2R (bb .Reg) (bb .Nom)) 1)
  , (r"contour", .data (r2R (bb .Ord) (bb .Reg)) 1)
  , (r"objects", .data (r2R (bb .Obj) (bb .Ratio)) 1)
  , (r"objectregions", .data (r2R (bb .Obj) (bb .Reg)) 1)
  , (r"contourline", .data (r2R (bb .Itv) (bb .Reg)) 1)
  , (r"objectcounts", .data (r2R (bb .Obj) (bb .Count)) 1)
  , (r"field", .data (r2R (bb .Loc) (bb .Ratio)) 1)
  , (r"object", .data (bb .Obj) 1)
  , (r"region", .data (bb .Reg) 1)
  , (r"in_", .data (bb .Nom) 0)
  , (r"countV", .data (bb .Count) 1)
  , (r"ratioV", .data (bb .Ratio) 1)
  , (r"interval", .data (bb .Itv) 1)
  , (r"ordinal", .data (bb .Ord) 1)
  , (r"nominal", .data (bb .Nom) 1)
  , (r"compose", .op [(fA (fA vy vz) (fA (fA vx vy) (fA vx vz)), [])])
  , (r"ratio", .op [(fA (bb .Ratio) (fA (bb .Ratio) (bb .Ratio)), [])])
  , (r"leq", .op [(fA (bb .Ord) (fA (bb .Ord) (bb .Bool)), [])])
  , (r"eq", .op [(fA (bb .Val) (fA (bb .Val) (bb .Bool)), [])])
  , (r"count", .op [(fA (r1R (bb .Obj)) (bb .Ratio), [])])
  , (r"size", .op [(fA (r1R (bb .Loc)) (bb .Ratio), [])])
  , (r"merge", .op [(fA (r1R (bb .Reg)) (bb .Reg), [])])
  , (r"centroid", .op [(fA (r1R (bb .Loc)) (bb .Loc), [])])
  , (r"avg", .op [(fA (r2R (bb .Val) (bb .Itv)) (bb .Itv), [])])
  , (r"min", .op [(fA (r2R (bb .Val) (bb .Ord)) (bb .Ord), [])])
  , (r"max", .op [(fA (r2R (bb .Val) (bb .Ord)) (bb .Ord), [])])
  , (r"sum", .op [(fA (r2R (bb .Val) (bb .Count)) (bb .Count), [])])
  , (r"reify", .op [(fA (r1R (bb .Loc)) (bb .Reg), [])])
  , (r"deify", .op [(fA (bb .Reg) (r1R (bb .Loc)), [])])
  , (r"get", .op [(fA (r1R vx) vx, [.limitOp 0 .Val])])
  , (r"invert", .op
      [ (fA (r2R (bb .Loc) (bb .Ord)) (r2R (bb .Ord) (bb .Reg)), [])
      , (fA (r2R (bb .Loc) (bb .Nom)) (r2R (bb .Reg) (bb .Nom)), [])
      ])
  , (r"revert", .op
      [ (fA (r2R (bb .Ord) (bb .Reg)) (r2R (bb .Loc) (bb .Ord)), [])
      , (fA (r2R (bb .Reg) (bb .Nom)) (r2R (bb .Loc) (bb .Nom)), [])
      ])
  , (r"oDist", .op
      [(fA (r2R (bb .Obj) (bb .Reg)) (fA (r2R (bb .Obj) (bb .Reg)) (r3R (bb .Obj) (bb .Ratio) (bb .Obj))), [])])
  , (r"lDist", .op
      [(fA (r1R (bb .Loc)) (fA (r1R (bb .Loc)) (r3R (bb .Loc) (bb .Ratio) (bb .Loc))), [])])
  , (r"loDist", .op
      [(fA (r1R (bb .Loc)) (fA (r2R (bb .Obj) (bb .Reg)) (r3R (bb .Loc) (bb .Ratio) (bb .Obj))), [])])
  , (r"oTopo", .op
      [(fA (r2R (bb .Obj) (bb .Reg)) (fA (r2R (bb .Obj) (bb .Reg)) (r3R (bb .Obj) (bb .Nom) (bb .Obj))), [])])
  , (r"loTopo", .op
      [(fA (r1R (bb .Loc)) (fA (r2R (bb .Obj) (bb .Reg)) (r3R (bb .Loc) (bb .Nom) (bb .Obj))), [])])
  , (r"nDist", .op
      [(fA (r1R (bb .Obj)) (fA (r1R (bb .Obj)) (fA (r3R (bb .Obj) (bb .Ratio) (bb .Obj)) (r3R (bb .Obj) (bb .Ratio) (bb .Obj)))), [])])
  , (r"lVis", .op
      [(fA (r1R (bb .Loc)) (fA (r1R (bb .Loc)) (fA (r2R (bb .Loc) (bb .Itv)) (r3R (bb .Loc) (bb .Bool) (bb .Loc)))), [])])
  , (r"interpol", .op
      [(fA (r2R (bb .Reg) (bb .Itv)) (fA (r1R (bb .Loc)) (r2R (bb .Loc) (bb .Itv))), [])])
  , (r"fcont", .op [(fA (r2R (bb .Loc) (bb .Itv)) (bb .Ratio), [])])
  , (r"ocont", .op [(fA (r2R (bb .Obj) (bb .Ratio)) (bb .Ratio), [])])
  , (r"pi1", .op [(fA vrel (r1R vx), [.hasParam 6 .R 0 (some 1)])])
  , (r"pi2", .op [(fA vrel (r1R vx), [.hasParam 6 .R 0 (some 2)])])
  , (r"pi3", .op [(fA vrel (r1R vx), [.hasParam 6 .R 0 (some 3)])])
  , (r"select", .op
      [(fA (fA vx (fA vx (bb .Bool))) (fA vrel (fA vx vrel)),
        [.limitOp 0 .Val, .hasParam 6 .R 0 none])])
  , (r"join_subset", .op
      [(fA vrel (fA (r1R vx) vrel),
        [.limitOp 0 .Val, .hasParam 6 .R 0 none])])
  , (r"join_key", .op
      [(fA (r3R vx (bb .Qlt) vy) (fA vrel (r3R vx vq vy)),
        [.limitOp 0 .Val, .limitOp 1 .Val, .limitOp 3 .Qlt,
         .limitShape 6 [r2R vx vq, r2R vy vq]])])
  , (r"join_with", .op
      [(fA (fA vq1 (fA vq1 vq2)) (fA (r2R vx vq1) (fA (r2R vx vq1) (r2R vx vq2))),
        [.limitOp 4 .Qlt, .limitOp 5 .Qlt, .limitOp 0 .Val])])
  , (r"groupbyL", .op
      [(fA (fA vrel vq) (fA (r3R vx vq vy) (r2R vx vq)),
        [.limitOp 0 .Val, .limitOp 1 .Val, .limitOp 3 .Qlt,
         .limitShape 6 [r1R vx, r2R vx vq1]])])
  , (r"groupbyR", .op
      [(fA (fA vrel vq) (fA (r3R vx vq vy) (r2R vy vq)),
        [.limitOp 0 .Val, .limitOp 1 .Val, .limitOp 3 .Qlt,
         .limitShape 6 [r1R vy, r2R vy vq]])])
  ]

/-- Converts the whole raw table; fails if any declaration violates the
declared arities. -/
def convTable (t : List (String × RawDecl)) : Option (List (String × List Scheme)) :=
  t.mapM (fun e => (toSchemes e.2).map (fun ss => (e.1, ss)))

/-- The checker's signature table, derived from the raw configuration. -/
def chkTable : List (String × List Scheme) :=
  (convTable rawTable).getD []

/-- Exact, case-sensitive lookup of an identifier in the signature table. -/
def lookupTable (n : String) : Option (List Scheme) :=
  (chkTable.find? (fun e => e.1 == n)).map (fun e => e.2)

/-- True iff a type contains no type variables. -/
def ground : Ty → Bool
  | .var _ => false
  | .base _ => true
  | .r1 a => ground a
  | .r2 a b => ground a && ground b
  | .r3 a b c => ground a && (ground b && ground c)
  | .fn a b => ground a && ground b

/-- Occurs check: does variable v occur in the type? -/
def occurs (v : Nat) : Ty → Bool
  | .var w => decide (v = w)
  | .base _ => false
  | .r1 a => occurs v a
  | .r2 a b => occurs v a || occurs v b
  | .r3 a b c => occurs v a || (occurs v b || occurs v c)
  | .fn a b => occurs v a || occurs v b

/-- The variable identity of a type, when it is a bare variable. -/
def varId : Ty → Option Nat
  | .var v => some v
  | _ => none

/-- The list of variables occurring in a type. -/
def varsOfTy : Ty → List Nat
  | .var v => [v]
  | .base _ => []
  | .r1 a => varsOfTy a
  | .r2 a b => varsOfTy a ++ varsOfTy b
  | .r3 a b c => varsOfTy a ++ (varsOfTy b ++ varsOfTy c)
  | .fn a b => varsOfTy a ++ varsOfTy b

/-- The list of variables a constraint mentions. -/
def varsOfCon : Constraint → List Nat
  | .subtypeBound v _ => [v]
  | .hasParam v _ pv _ => [v, pv]
  | .shapeLimit v pats => v :: (pats.map varsOfTy).flatten

/-- A substitution: variable bindings accumulated during unification,
newest first. -/
abbrev Subst := List (Nat × Ty)

/-- Looks up a variable's binding. -/
def substLookup (s : Subst) (v : Nat) : Option Ty :=
  (s.find? (fun p => p.1 == v)).map (fun p => p.2)

/-- One substitution pass: replaces every bound variable by its binding,
without chasing chains. -/
def applyOnce (s : Subst) : Ty → Ty
  | .var v =>
    match substLookup s v with
    | some t => t
    | none => .var v
  | .base o => .base o
  | .r1 a => .r1 (applyOnce s a)
  | .r2 a b => .r2 (applyOnce s a) (applyOnce s b)
  | .r3 a b c => .r3 (applyOnce s a) (applyOnce s b) (applyOnce s c)
  | .fn a b => .fn (applyOnce s a) (applyOnce s b)

/-- Iterated substitution passes. -/
def applySubN : Nat → Subst → Ty → Ty
  | 0, _, t => t
  | k + 1, s, t => applySubN k s (applyOnce s t)

/-- Full application of a substitution: binding chains have length at most
the number of bindings, so that many passes resolve every live chain. -/
def applySub (s : Subst) (t : Ty) : Ty :=
  applySubN s.length s t

/-- Alpha-renaming of a scheme skeleton: shifts every bound variable up
by the fresh-counter base. -/
def shiftTy (n : Nat) : Ty → Ty
  | .var v => .var (v + n)
  | .base o => .base o
  | .r1 a => .r1 (shiftTy n a)
  | .r2 a b => .r2 (shiftTy n a) (shiftTy n b)
  | .r3 a b c => .r3 (shiftTy n a) (shiftTy n b) (shiftTy n c)
  | .fn a b => .fn (shiftTy n a) (shiftTy n b)

/-- Shifts the variables a constraint mentions by the fresh-counter base. -/
def shiftCon (n : Nat) : Constraint → Constraint
  | .subtypeBound v b => .subtypeBound (v + n) b
  | .hasParam v op pv pos => .hasParam (v + n) op (pv + n) pos
  | .shapeLimit v pats => .shapeLimit (v + n) (pats.map (shiftTy n))

/-- Modelled from the spec (Instantiator): creates fresh type variables
for every bound variable of the scheme by shifting them to the fresh
counter, and returns the renamed skeleton, the renamed constraints and
the advanced counter. -/
def Scheme.instantiate (sch : Scheme) (c : Nat) : Ty × List Constraint × Nat :=
  (shiftTy c sch.skeleton, sch.cons.map (shiftCon c), c + sch.nvars)

/-- All variables of an instantiation (skeleton and constraints). -/
def instVarsOf (p : Ty × List Constraint × Nat) : List Nat :=
  varsOfTy p.1 ++ (p.2.1.map varsOfCon).flatten

/-- A scheme is well-formed when every variable of its skeleton and
constraints is among its declared bound variables. -/
def schemeWF (sch : Scheme) : Bool :=
  (varsOfTy sch.skeleton ++ (sch.cons.map varsOfCon).flatten).all
    (fun w => decide (w < sch.nvars))

/-- Modelled from the spec (unifier bullet 4): the subtype check used at
application sites, extending operator subtyping covariantly to relation
arguments; function types are contravariant in the domain.  Fuel bounds
recursion depth. -/
def subtypeOf : Nat → Ty → Ty → Bool
  | 0, _, _ => false
  | fuel + 1, a, b =>
    if a = b then true
    else
      match a, b with
      | .base x, .base y => isSubtypeOp x y
      | .r1 x, .r1 y => subtypeOf fuel x y
      | .r2 x1 x2, .r2 y1 y2 => subtypeOf fuel x1 y1 && subtypeOf fuel x2 y2
      | .r3 x1 x2 x3, .r3 y1 y2 y3 =>
        subtypeOf fuel x1 y1 && (subtypeOf fuel x2 y2 && subtypeOf fuel x3 y3)
      | .fn d1 c1, .fn d2 c2 => subtypeOf fuel d2 d1 && subtypeOf fuel c1 c2
      | _, _ => false

/-- Binds a variable after the occurs check. -/
def bindVar (s : Subst) (v : Nat) (t : Ty) : Except Err Subst :=
  if occurs v t then .error .infiniteType else .ok ((v, t) :: s)

/-- Modelled from the spec (Unifier): resolves both sides under the
current substitution; identical types unify trivially; a variable is
bound (with occurs check); otherwise operators must match exactly and
arguments unify position by position; mismatched concrete types fail.
Fuel bounds recursion depth. -/
def unify : Nat → Subst → Ty → Ty → Except Err Subst
  | 0, _, _, _ => .error .constraintDeadlock
  | fuel + 1, s, t1, t2 =>
    let u1 := applySub s t1
    let u2 := applySub s t2
    if u1 = u2 then .ok s
    else
      match varId u1 with
      | some v => bindVar s v u2
      | none =>
        match varId u2 with
        | some v => bindVar s v u1
        | none =>
          match u1, u2 with
          | .fn d1 c1, .fn d2 c2 => do
            let s' ← unify fuel s d1 d2
            unify fuel s' c1 c2
          | .r1 a, .r1 b => unify fuel s a b
          | .r2 a1 a2, .r2 b1 b2 => do
            let s' ← unify fuel s a1 b1
            unify fuel s' a2 b2
          | .r3 a1 a2 a3, .r3 b1 b2 b3 => do
            let s' ← unify fuel s a1 b1
            let s'' ← unify fuel s' a2 b2
            unify fuel s'' a3 b3
          | _, _ => .error .subtypeMismatch

/-- The head operator of a resolved type, when concrete. -/
def headOpOf : Ty → Option TOp
  | .base o => some o
  | .r1 _ => some .R
  | .r2 _ _ => some .R
  | .r3 _ _ _ => some .R
  | _ => none

/-- The argument list of a relation type. -/
def paramsOf : Ty → List Ty
  | .r1 a => [a]
  | .r2 a b => [a, b]
  | .r3 a b c => [a, b, c]
  | _ => []

/-- Structural shape matching for ShapeLimit patterns; per the spec the
pattern's sub-variables are fresh, so they match anything. -/
def shapeMatch : Ty → Ty → Bool
  | .var _, _ => true
  | .base x, .base y => decide (x = y)
  | .r1 p, .r1 a => shapeMatch p a
  | .r2 p1 p2, .r2 a1 a2 => shapeMatch p1 a1 && shapeMatch p2 a2
  | .r3 p1 p2 p3, .r3 a1 a2 a3 =>
    shapeMatch p1 a1 && (shapeMatch p2 a2 && shapeMatch p3 a3)
  | .fn p1 p2, .fn a1 a2 => shapeMatch p1 a1 && shapeMatch p2 a2
  | _, _ => false

/-- Outcome of re-evaluating one constraint: satisfied, still pending,
violated, or a new unification subgoal (HasParam forcing the parameter
at a position). -/
inductive CStatus
  | sat
  | pending
  | viol
  | refine (a b : Ty)

/-- Modelled from the spec (Constraint System `check`): re-evaluates a
constraint against the current substitution. -/
def checkConstraint (s : Subst) : Constraint → CStatus
  | .subtypeBound v b =>
    match headOpOf (applySub s (.var v)) with
    | some o => if isSubtypeOp o b then .sat else .viol
    | none =>
      match applySub s (.var v) with
      | .var _ => .pending
      | _ => .viol
  | .hasParam v op pv pos =>
    let t := applySub s (.var v)
    match headOpOf t with
    | some o =>
      if o = op then
        match pos with
        | some p =>
          match (paramsOf t).get? (p - 1) with
          | some a => .refine a (.var pv)
          | none => .viol
        | none =>
          let pvt := applySub s (.var pv)
          if (paramsOf t).any (fun a => decide (applySub s a = pvt)) then .sat
          else .pending
      else .viol
    | none =>
      match t with
      | .var _ => .pending
      | _ => .viol
  | .shapeLimit v pats =>
    match applySub s (.var v) with
    | .var _ => .pending
    | t => if pats.any (fun p => shapeMatch p t) then .sat else .viol

/-- One pass over all live constraints: violations abort, refinements
trigger unification subgoals; reports whether the substitution changed. -/
def constraintPass (ufuel : Nat) (cs : List Constraint) (s : Subst) :
    Except Err (Subst × Bool) :=
  cs.foldlM
    (fun (acc : Subst × Bool) c =>
      match checkConstraint acc.1 c with
      | .sat => .ok acc
      | .pending => .ok acc
      | .viol => .error .constraintViolation
      | .refine a b => do
        let s' ← unify ufuel acc.1 a b
        .ok (s', acc.2 || decide (s'.length ≠ acc.1.length)))
    (s, false)

/-- Modelled from the spec (Constraint System): iterates constraint
re-checking to a fixpoint, bounded by fuel; non-convergence fails with
ConstraintDeadlock. -/
def fixpoint : Nat → Nat → List Constraint → Subst → Except Err Subst
  | 0, _, _, _ => .error .constraintDeadlock
  | n + 1, ufuel, cs, s => do
    let r ← constraintPass ufuel cs s
    if r.2 then fixpoint n ufuel cs r.1 else .ok r.1

/-- The checker's per-call state: the substitution, the live constraints
collected from instantiations, and the fresh-variable counter. -/
structure ChkState where
  sub : Subst
  cons : List Constraint
  fresh : Nat
deriving DecidableEq

/-- Modelled from the spec (Expression Checker application rule): the
current type must be a function type; a fully concrete argument against a
fully concrete domain requires the argument to be a subtype of the domain
(SubtypeMismatch otherwise); a partially open pair is unified and the
constraints re-checked to a fixpoint; a free-input variable in function
position is forced toward a function shape with a fresh codomain;
applying to any other non-function type is an ArityMismatch. -/
def applyStep (ufuel : Nat) (st : ChkState) (cur arg : Ty) :
    Except Err (Ty × ChkState) :=
  match applySub st.sub cur with
  | .fn dom cod =>
    let d := applySub st.sub dom
    let a := applySub st.sub arg
    if ground d && ground a then
      if subtypeOf ufuel a d then .ok (cod, st) else .error .subtypeMismatch
    else do
      let s1 ← unify ufuel st.sub a d
      let s2 ← fixpoint (st.cons.length + s1.length + 2) ufuel st.cons s1
      .ok (cod, ⟨s2, st.cons, st.fresh⟩)
  | .var v => do
    let codv := Ty.var st.fresh
    let s1 ← unify ufuel st.sub (.var v) (.fn arg codv)
    let s2 ← fixpoint (st.cons.length + s1.length + 2) ufuel st.cons s1
    .ok (codv, ⟨s2, st.cons, st.fresh + 1⟩)
  | _ => .error .arityMismatch

/-- Folds application left to right over the argument types. -/
def applyChain (ufuel : Nat) : ChkState → Ty → List Ty → Except Err (Ty × ChkState)
  | st, cur, [] => .ok (cur, st)
  | st, cur, a :: rest => do
    let r ← applyStep ufuel st cur a
    applyChain ufuel r.2 r.1 rest

/-- Expression AST: an identifier or a left-associative application. -/
inductive Expr
  | id (name : String)
  | app (f a : Expr)
deriving DecidableEq

/-- The head identifier of an application spine. -/
def headOf : Expr → String
  | .id n => n
  | .app f _ => headOf f

/-- The argument expressions of an application spine, left to right. -/
def argsOf : Expr → List Expr
  | .id _ => []
  | .app f a => argsOf f ++ [a]

/-- The node count of an expression, used as the checker's fuel. -/
def exprSize : Expr → Nat
  | .id _ => 1
  | .app f a => exprSize f + exprSize a + 1

/-- True for a successful alternative attempt. -/
def isOkR (r : Except Err (Ty × ChkState)) : Bool :=
  match r with
  | .ok _ => true
  | .error _ => false

/-- Modelled from the spec (Expression Checker overloads): exactly one
alternative must succeed; more than one success is AmbiguousOverload;
zero successes surface the failure of the first alternative attempted
(the spec leaves the specificity order open). -/
def chooseAlternative (rs : List (Except Err (Ty × ChkState))) :
    Except Err (Ty × ChkState) :=
  match rs.filter isOkR with
  | [] =>
    match rs with
    | [] => .error .undefinedOperatorArity
    | r :: _ => r
  | [r] => r
  | _ :: _ :: _ => .error .ambiguousOverload

/-- The unifier's recursion-depth bound (configuration types are shallow). -/
def unifyFuel : Nat := 32

/-- Modelled from the spec (Expression Checker): checks an application
spine.  Arguments are checked left to right against the shared state;
a head known to the table has each alternative scheme instantiated fresh
and attempted against a private copy of the state; an unknown head is an
anonymous free input of a fresh unconstrained type.  Fuel decreases on
every recursive call. -/
def checkExpr : Nat → ChkState → Expr → Except Err (Ty × ChkState)
  | 0, _, _ => .error .constraintDeadlock
  | fuel + 1, st, e => do
    let folded ← (argsOf e).foldlM
      (fun (acc : List Ty × ChkState) aexp => do
        let r ← checkExpr fuel acc.2 aexp
        .ok (r.1 :: acc.1, r.2))
      (([] : List Ty), st)
    let argTys := folded.1.reverse
    let st1 := folded.2
    match lookupTable (headOf e) with
    | none =>
      applyChain unifyFuel ⟨st1.sub, st1.cons, st1.fresh + 1⟩ (.var st1.fresh) argTys
    | some alts =>
      chooseAlternative (alts.map (fun sch =>
        let inst := sch.instantiate st1.fresh
        applyChain unifyFuel ⟨st1.sub, st1.cons ++ inst.2.1, inst.2.2⟩ inst.1 argTys))

deriving instance DecidableEq for Except

/-- The empty per-call state. -/
def initState : ChkState := ⟨[], [], 0⟩

/-- Checks a whole expression from a fresh state and reports the fully
substituted type, or UnresolvedType if free variables remain. -/
def checkTop (e : Expr) : Except Err Ty := do
  let r ← checkExpr (2 * exprSize e + 4) initState e
  let t := applySub r.2.sub r.1
  if ground t then .ok t else .error .unresolvedType

/-- The left parenthesis token. -/
def lparenTok : String := r"("

/-- The right parenthesis token. -/
def rparenTok : String := r")"

/-- Whitespace tokenization with parentheses as single tokens; the
accumulator holds the current word reversed. -/
def tokenizeGo : List Char → List Char → List String
  | [], acc => if acc.isEmpty then [] else [String.mk acc.reverse]
  | c :: cs, acc =>
    if c = ' ' then
      (if acc.isEmpty then [] else [String.mk acc.reverse]) ++ tokenizeGo cs []
    else if c = '(' then
      (if acc.isEmpty then [] else [String.mk acc.reverse]) ++ lparenTok :: tokenizeGo cs []
    else if c = ')' then
      (if acc.isEmpty then [] else [String.mk acc.reverse]) ++ rparenTok :: tokenizeGo cs []
    else tokenizeGo cs (c :: acc)

/-- Left-associative application of a non-empty atom sequence. -/
def mkApp : List Expr → Option Expr
  | [] => none
  | e :: es => some (es.foldl .app e)

/-- Recursive-descent parsing of an atom sequence, per the grammar
`expr := atom (atom)*`, `atom := identifier | ( expr )`; stops at a
closing parenthesis; fuel decreases on every call. -/
def parseSeq : Nat → List String → Option (List Expr × List String)
  | 0, _ => none
  | _ + 1, [] => some ([], [])
  | fuel + 1, t :: rest =>
    if t = rparenTok then some ([], t :: rest)
    else if t = lparenTok then
      match parseSeq fuel rest with
      | some (es, r :: rest') =>
        if r = rparenTok then
          match mkApp es with
          | some e =>
            match parseSeq fuel rest' with
            | some (es2, rest'') => some (e :: es2, rest'')
            | none => none
          | none => none
        else none
      | _ => none
    else
      match parseSeq fuel rest with
      | some (es, rest') => some (.id t :: es, rest')
      | none => none

/-- Parses a whitespace-tokenized expression string. -/
def parseString (s : String) : Option Expr :=
  let toks := tokenizeGo s.toList []
  match parseSeq (2 * toks.length + 2) toks with
  | some (es, []) => mkApp es
  | _ => none

/-- Parses and checks an expression string (none on a grammar error). -/
def checkString (s : String) : Option (Except Err Ty) :=
  (parseString s).map checkTop

/-- Checks the same expression string twice against the unchanged
signature table. -/
def checkTwice (s : String) : Option (Except Err Ty) × Option (Except Err Ty) :=
  (checkString s, checkString s)

/-- The shape patterns a raw constraint carries. -/
def rawConPats : RawConstraint → List RawTy
  | .limitShape _ pats => pats
  | _ => []

/-- Every raw type a declaration constructs: its data type or scheme
skeletons together with all constraint patterns. -/
def rawDeclTys : RawDecl → List RawTy
  | .data t _ => [t]
  | .op alts =>
    alts.map Prod.fst ++ (alts.map (fun a => (a.2.map rawConPats).flatten)).flatten

/-- Every parametric type constructed in the CCT configuration: the type
synonyms and all types of the signature table. -/
def rawTableTys : List RawTy :=
  rawSynonyms ++ (rawTable.map (fun e => rawDeclTys e.2)).flatten

/-- The checker-level scheme of `compose` (cct.py line 74), with
x = 0, y = 1, z = 2. -/
def composeSkel : Ty :=
  .fn (.fn (.var 1) (.var 2)) (.fn (.fn (.var 0) (.var 1)) (.fn (.var 0) (.var 2)))

/-- The checker-level scheme of `select` (cct.py lines 132-133), with
x = 0 and rel = 6. -/
def selectScheme : Scheme :=
  ⟨.fn (.fn (.var 0) (.fn (.var 0) (.base .Bool))) (.fn (.var 6) (.fn (.var 0) (.var 6))),
   [.subtypeBound 0 .Val, .hasParam 6 .R 0 none], 7⟩

/-- The first alternative scheme of `invert` (cct.py line 101). -/
def invertScheme1 : Scheme :=
  ⟨.fn (.r2 (.base .Loc) (.base .Ord)) (.r2 (.base .Ord) (.base .Reg)), [], 7⟩

/-- The second alternative scheme of `invert` (cct.py line 102). -/
def invertScheme2 : Scheme :=
  ⟨.fn (.r2 (.base .Loc) (.base .Nom)) (.r2 (.base .Reg) (.base .Nom)), [], 7⟩

/-! Helper lemmas about variable-free (ground) types and about
instantiation. -/

theorem ground_applyOnce {t : Ty} (h : ground t = true) : ∀ s, applyOnce s t = t := by
  induction t <;> simp_all [ground, applyOnce]

theorem ground_applySubN {t : Ty} (h : ground t = true) : ∀ k s, applySubN k s t = t := by
  intro k
  induction k with
  | zero => intro s; rfl
  | succ k ih => intro s; simp [applySubN, ground_applyOnce h, ih]

theorem ground_applySub {t : Ty} (h : ground t = true) : ∀ s, applySub s t = t :=
  fun s => ground_applySubN h _ s

theorem ground_occurs {t : Ty} (h : ground t = true) : ∀ v, occurs v t = false := by
  induction t <;> simp_all [ground, occurs]

theorem ground_varId {t : Ty} (h : ground t = true) : varId t = none := by
  cases t <;> simp_all [ground, varId]

theorem ground_ne_var {t : Ty} (h : ground t = true) : ∀ v, t ≠ Ty.var v := by
  cases t <;> simp_all [ground]

theorem varsOfTy_shift (n : Nat) : ∀ t, varsOfTy (shiftTy n t) = (varsOfTy t).map (· + n) := by
  intro t
  induction t <;> simp_all [varsOfTy, shiftTy]

theorem varsOfTy_shift_comp (n : Nat) :
    varsOfTy ∘ shiftTy n = List.map (· + n) ∘ varsOfTy :=
  funext (varsOfTy_shift n)

theorem varsOfCon_shift (n : Nat) : ∀ c, varsOfCon (shiftCon n c) = (varsOfCon c).map (· + n) := by
  intro c
  cases c <;>
    simp [varsOfCon, shiftCon, varsOfTy_shift, List.map_flatten, List.map_map,
      varsOfTy_shift_comp n]

theorem varsOfCon_shift_comp (n : Nat) :
    varsOfCon ∘ shiftCon n = List.map (· + n) ∘ varsOfCon :=
  funext (varsOfCon_shift n)

theorem instVarsOf_instantiate (sch : Scheme) (n : Nat) :
    instVarsOf (sch.instantiate n) =
      (varsOfTy sch.skeleton ++ (sch.cons.map varsOfCon).flatten).map (· + n) := by
  simp [instVarsOf, Scheme.instantiate, varsOfTy_shift, List.map_flatten, List.map_map,
    varsOfCon_shift_comp n]

theorem unify_ground_var (f : Nat) {t : Ty} (hg : ground t = true) (s : Subst) (v : Nat)
    (hv : applySub s (.var v) = .var v) :
    unify (f + 1) s t (.var v) = .ok ((v, t) :: s) := by
  simp [unify, ground_applySub hg, hv, ground_ne_var hg, ground_varId hg, bindVar,
    ground_occurs hg, varId]

theorem unify_refl (f : Nat) (s : Subst) (t : Ty) : unify (f + 1) s t t = .ok s := by
  simp [unify]

theorem unify_fn_split (f : Nat) (s : Subst) (a1 b1 a2 b2 : Ty)
    (h1 : applySub s (.fn a1 b1) = .fn a1 b1) (h2 : applySub s (.fn a2 b2) = .fn a2 b2)
    (hne : (Ty.fn a1 b1) ≠ (.fn a2 b2)) :
    unify (f + 1) s (.fn a1 b1) (.fn a2 b2) =
      (do
        let s' ← unify f s a1 a2
        unify f s' b1 b2) := by
  simp [unify, h1, h2, hne, varId]

theorem subtypeOf_refl (f : Nat) (t : Ty) : subtypeOf (f + 1) t t = true := by
  simp [subtypeOf]

theorem compose_chain (f : Nat) {A B C : Ty} (hA : ground A = true)
    (hB : ground B = true) (hC : ground C = true) :
    (applyChain (f + 1 + 1) ⟨[], [], 7⟩ composeSkel [.fn B C, .fn A B, A]).map Prod.fst =
      .ok C := by
  have hu1 : unify (f + 1 + 1) [] (.fn B C) (.fn (.var 1) (.var 2)) =
      .ok [(2, C), (1, B)] := by
    rw [unify_fn_split (f + 1) [] B C (.var 1) (.var 2) rfl rfl
      (by intro h; injection h with h1 h2; exact ground_ne_var hB 1 h1)]
    rw [unify_ground_var f hB [] 1 rfl]
    simp only [Bind.bind, Except.bind]
    rw [unify_ground_var f hC [(1, B)] 2 rfl]
  have e1 : applyStep (f + 1 + 1) ⟨[], [], 7⟩ composeSkel (.fn B C) =
      .ok (.fn (.fn (.var 0) (.var 1)) (.fn (.var 0) (.var 2)),
        ⟨[(2, C), (1, B)], [], 7⟩) := by
    simp [applyStep, applySub, applySubN, composeSkel, ground, hu1,
      fixpoint, constraintPass, List.foldlM, Bind.bind, Except.bind, pure, Except.pure]
  have hu2 : unify (f + 1 + 1) [(2, C), (1, B)] (.fn A B) (.fn (.var 0) B) =
      .ok [(0, A), (2, C), (1, B)] := by
    rw [unify_fn_split (f + 1) [(2, C), (1, B)] A B (.var 0) B
      (by simp [applySub, applySubN, applyOnce, substLookup,
        ground_applyOnce hA, ground_applyOnce hB])
      (by simp [applySub, applySubN, applyOnce, substLookup, ground_applyOnce hB])
      (by intro h; injection h with h1 h2; exact ground_ne_var hA 0 h1)]
    rw [unify_ground_var f hA [(2, C), (1, B)] 0 rfl]
    simp only [Bind.bind, Except.bind]
    rw [unify_refl f [(0, A), (2, C), (1, B)] B]
  have e2 : applyStep (f + 1 + 1) ⟨[(2, C), (1, B)], [], 7⟩
      (.fn (.fn (.var 0) (.var 1)) (.fn (.var 0) (.var 2))) (.fn A B) =
      .ok (.fn (.var 0) C, ⟨[(0, A), (2, C), (1, B)], [], 7⟩) := by
    simp [applyStep, applySub, applySubN, applyOnce, substLookup, ground,
      ground_applyOnce hA, ground_applyOnce hB, ground_applyOnce hC, hu2,
      fixpoint, constraintPass, List.foldlM, Bind.bind, Except.bind, pure, Except.pure]
  have e3 : applyStep (f + 1 + 1) ⟨[(0, A), (2, C), (1, B)], [], 7⟩
      (.fn (.var 0) C) A = .ok (C, ⟨[(0, A), (2, C), (1, B)], [], 7⟩) := by
    simp [applyStep, applySub, applySubN, applyOnce, substLookup, ground,
      ground_applyOnce hA, ground_applyOnce hB, ground_applyOnce hC,
      hA, hB, hC, subtypeOf_refl (f + 1)]
  simp [applyChain, e1, e2, e3, Bind.bind, Except.bind, Except.map]

/-- C1: for `pi1 (objectregions xs)`, where the scheme objectregions has
type R(Obj, Reg) applied to one input, the checker infers R(Obj): the
first-position projector applied to a binary relation whose first
argument type is Obj yields the unary container R(Obj). -/
theorem claim1_projection_pi1 :
    checkString (r"pi1 (objectregions xs)") = some (.ok (.r1 (.base .Obj))) := by
  decide

/-- C2: for `select leq (objectratios xs) (nominal x)`, type-checking
fails with SubtypeMismatch: leq's domain requires an Ord argument, and
Nom is not a subtype of Ord in the declared hierarchy. -/
theorem claim2_select_nominal_mismatch :
    checkString (r"select leq (objectratios xs) (nominal x)") =
      some (.error .subtypeMismatch) := by
  decide

/-- C3, counterexample: for `select leq (objectratios xs) (interval x)`
the checker does not infer R(Obj, Ratio): `objectratios` is not declared
in the signature table (only `objects` is), so it is a free input of a
fresh unconstrained type, and nothing in the context determines Obj or
Ratio. -/
theorem claim3_counterexample :
    checkString (r"select leq (objectratios xs) (interval x)") ≠
      some (.ok (.r2 (.base .Obj) (.base .Ratio))) := by
  decide

/-- C3, amended: `select leq (objectratios xs) (interval x)` passes the
subtype check (Itv is a subtype of Ord) but, with `objectratios` an
anonymous free input, the final type is still the unresolved relation
variable, so the checker reports UnresolvedType rather than
R(Obj, Ratio). -/
theorem claim3_amended :
    checkString (r"select leq (objectratios xs) (interval x)") =
      some (.error .unresolvedType) := by
  decide

/-- C4: an overloaded application type-checks only if exactly one
alternative succeeds, and more than one success is AmbiguousOverload;
for `invert`, whose alternatives have domains R(Loc, Ord) and
R(Loc, Nom), the argument `field x` of type R(Loc, Ratio) satisfies both
under subtype coercion (Ratio is a subtype of both Ord and Nom), so both
alternatives succeed and the application reports AmbiguousOverload. -/
theorem claim4_overload_ambiguity :
    (∀ rs : List (Except Err (Ty × ChkState)), 2 ≤ (rs.filter isOkR).length →
      chooseAlternative rs = .error .ambiguousOverload) ∧
    lookupTable (r"invert") = some [invertScheme1, invertScheme2] ∧
    (applyChain unifyFuel ⟨[], [], 7⟩ (invertScheme1.instantiate 0).1
        [.r2 (.base .Loc) (.base .Ratio)]).map Prod.fst =
      .ok (.r2 (.base .Ord) (.base .Reg)) ∧
    (applyChain unifyFuel ⟨[], [], 7⟩ (invertScheme2.instantiate 0).1
        [.r2 (.base .Loc) (.base .Ratio)]).map Prod.fst =
      .ok (.r2 (.base .Reg) (.base .Nom)) ∧
    checkString (r"invert (field x)") = some (.error .ambiguousOverload) := by
  refine ⟨?_, by decide, by decide, by decide, by decide⟩
  intro rs h
  rcases hf : rs.filter isOkR with _ | ⟨a, rest⟩
  · rw [hf] at h
    simp at h
  · rcases rest with _ | ⟨b, t⟩
    · rw [hf] at h
      simp at h
    · simp [chooseAlternative, hf]

/-- C4 witness: two successful alternatives yield AmbiguousOverload. -/
theorem claim4_witness :
    chooseAlternative [.ok (.base .Obj, initState), .ok (.base .Obj, initState)] =
      .error .ambiguousOverload :=
  claim4_overload_ambiguity.1 _ (by decide)

/-- C5: every scheme of the signature table is well-formed (its skeleton
and constraint variables lie among its bound variables, shared across the
textual skeletons); instantiating at fresh-counter n renames every
variable into [n, n + nvars), so instantiations drawn from disjoint
counter ranges never share a variable identity. -/
theorem claim5_fresh_instantiation :
    (chkTable.all (fun e => e.2.all schemeWF) = true ∧
      lookupTable (r"select") = some [selectScheme]) ∧
    (∀ (sch : Scheme) (n v : Nat), schemeWF sch = true →
      v ∈ instVarsOf (sch.instantiate n) → n ≤ v ∧ v < n + sch.nvars) ∧
    (∀ (s1 s2 : Scheme) (n m v : Nat), schemeWF s1 = true → schemeWF s2 = true →
      n + s1.nvars ≤ m → v ∈ instVarsOf (s1.instantiate n) →
      v ∉ instVarsOf (s2.instantiate m)) := by
  have p2 : ∀ (sch : Scheme) (n v : Nat), schemeWF sch = true →
      v ∈ instVarsOf (sch.instantiate n) → n ≤ v ∧ v < n + sch.nvars := by
    intro sch n v hwf hv
    rw [instVarsOf_instantiate] at hv
    rcases List.mem_map.mp hv with ⟨w, hw, rfl⟩
    simp only [schemeWF] at hwf
    have hlt : w < sch.nvars := by simpa using (List.all_eq_true.mp hwf) w hw
    omega
  refine ⟨⟨by decide, by decide⟩, p2, ?_⟩
  intro s1 s2 n m v h1 h2 hle hv1 hv2
  have a1 := p2 s1 n v h1 hv1
  have a2 := p2 s2 m v h2 hv2
  omega

/-- C5 witness: instantiating `select` at counter 7 produces variable 13
(the shared skeleton variable rel = 6, shifted), which lies in [7, 14)
and does not occur in an instantiation at counter 14. -/
theorem claim5_witness :
    (7 ≤ 13 ∧ 13 < 7 + selectScheme.nvars) ∧
      13 ∉ instVarsOf (selectScheme.instantiate 14) :=
  ⟨claim5_fresh_instantiation.2.1 selectScheme 7 13 (by decide) (by decide),
   claim5_fresh_instantiation.2.2 selectScheme selectScheme 7 14 13 (by decide)
     (by decide) (by decide) (by decide)⟩

/-- C6: every parametric type constructed in the CCT configuration (type
synonyms, data-input types, scheme skeletons and constraint patterns)
applies its operator at the declared arity — the concrete operators are
nullary and the relation constructor R is applied at arities 1 to 3 —
and the whole table converts into checker schemes under that arity
discipline. -/
theorem claim6_arity_invariant :
    rawTableTys.all (fun t => wfArityF 32 t) = true ∧
      (convTable rawTable).isSome = true := by
  decide

/-- C7: the subtype relation over the declared operators is a preorder —
reflexive and transitive — and Count is a subtype of Val via the chain
Count, Ratio, Itv, Ord, Nom, Qlt, Val. -/
theorem claim7_subtype_preorder :
    (∀ t : TOp, isSubtypeOp t t = true) ∧
    (∀ a b c : TOp, isSubtypeOp a b = true → isSubtypeOp b c = true →
      isSubtypeOp a c = true) ∧
    (isSubtypeOp .Count .Ratio = true ∧ isSubtypeOp .Ratio .Itv = true ∧
     isSubtypeOp .Itv .Ord = true ∧ isSubtypeOp .Ord .Nom = true ∧
     isSubtypeOp .Nom .Qlt = true ∧ isSubtypeOp .Qlt .Val = true ∧
     isSubtypeOp .Count .Val = true) := by
  decide

/-- C7 witness: transitivity applied at Bool, Nom, Qlt. -/
theorem claim7_witness : isSubtypeOp .Bool .Qlt = true :=
  claim7_subtype_preorder.2.1 .Bool .Nom .Qlt (by decide) (by decide)

/-- C8: for the scheme compose with type (y ** z) ** (x ** y) ** (x ** z)
and any function-typed operands f : B -> C and g : A -> B with an
argument of type A (A, B, C concrete), the inferred type of
`compose f g a` is C, the same type as the direct sequential application
`f (g a)` (whose inner application has type B and outer type C). -/
theorem claim8_compose_law :
    lookupTable (r"compose") = some [⟨composeSkel, [], 7⟩] ∧
    ∀ A B C : Ty, ground A = true → ground B = true → ground C = true →
      ((applyChain unifyFuel ⟨[], [], 7⟩ composeSkel [.fn B C, .fn A B, A]).map Prod.fst =
        .ok C ∧
       (applyChain unifyFuel ⟨[], [], 0⟩ (.fn A B) [A]).map Prod.fst = .ok B ∧
       (applyChain unifyFuel ⟨[], [], 0⟩ (.fn B C) [B]).map Prod.fst = .ok C) := by
  refine ⟨by decide, ?_⟩
  intro A B C hA hB hC
  refine ⟨?_, ?_, ?_⟩
  · rw [show unifyFuel = 30 + 1 + 1 from rfl]
    exact compose_chain 30 hA hB hC
  · simp [applyChain, applyStep, applySub, applySubN, hA, hB, subtypeOf,
      Bind.bind, Except.bind, Except.map]
  · simp [applyChain, applyStep, applySub, applySubN, hB, hC, subtypeOf,
      Bind.bind, Except.bind, Except.map]

/-- C8 witness: the claim's own example, compose deify reify — with
A = R(Loc), B = Reg, C = R(Loc) — yields R(Loc), matching the direct
sequential application. -/
theorem claim8_witness :
    (applyChain unifyFuel ⟨[], [], 7⟩ composeSkel
        [.fn (.base .Reg) (.r1 (.base .Loc)), .fn (.r1 (.base .Loc)) (.base .Reg),
         .r1 (.base .Loc)]).map Prod.fst = .ok (.r1 (.base .Loc)) ∧
    (applyChain unifyFuel ⟨[], [], 0⟩ (.fn (.r1 (.base .Loc)) (.base .Reg))
        [.r1 (.base .Loc)]).map Prod.fst = .ok (.base .Reg) ∧
    (applyChain unifyFuel ⟨[], [], 0⟩ (.fn (.base .Reg) (.r1 (.base .Loc)))
        [.base .Reg]).map Prod.fst = .ok (.r1 (.base .Loc)) :=
  claim8_compose_law.2 (.r1 (.base .Loc)) (.base .Reg) (.r1 (.base .Loc))
    (by decide) (by decide) (by decide)

/-- C9: type-checking is deterministic — the checker is a pure function
of the expression string and the fixed signature table, so checking the
same string twice yields the identical result both times. -/
theorem claim9_deterministic : ∀ s : String, (checkTwice s).1 = (checkTwice s).2 :=
  fun _ => rfl

/-- C10: signature-table lookup is exact and case-sensitive: the test
suite's identifiers otopo, lotopo, objectratios, apply2 and nomcoverages
match no declaration (CCT declares oTopo and loTopo, and objects rather
than objectratios), nor do the imported names algebra, R1 and R2, while
oTopo and loTopo resolve; an unmatched identifier is checked as a fresh
free input (a fresh type variable). -/
theorem claim10_exact_lookup :
    lookupTable (r"otopo") = none ∧ lookupTable (r"lotopo") = none ∧
    lookupTable (r"objectratios") = none ∧ lookupTable (r"apply2") = none ∧
    lookupTable (r"nomcoverages") = none ∧
    (lookupTable (r"oTopo")).isSome = true ∧ (lookupTable (r"loTopo")).isSome = true ∧
    lookupTable (r"algebra") = none ∧ lookupTable (r"R1") = none ∧
    lookupTable (r"R2") = none ∧
    (checkExpr 2 initState (.id (r"otopo"))).map Prod.fst = .ok (.var 0) := by
  decide

end CCT
